import Mathlib

/-!
Shallow embedding of the OAuth/OIDC utility code of jlewi/monogo and proofs
about it.  Pure Go functions are translated into Lean functions; I/O effects
(random reads, the file system, the token exchange with the provider, the
identity-token verifier, channel arrivals) are passed in explicitly as values
or function parameters.  Go strings are modelled as lists of characters,
machine integers as `Nat`/`Int`, and fallible operations as `Option`/`Except`.
-/

namespace Monogo

/-- Go strings are modelled as lists of characters. -/
abbrev Str := List Char

/-- Association-list lookup, used to model Go map reads. -/
def lookupBy {κ β : Type} [DecidableEq κ] : List (κ × β) → κ → Option β
  | [], _ => none
  | (k, v) :: rest, key => if k = key then some v else lookupBy rest key

/-! ### Go's encoding/base64, `RawURLEncoding` (base64url, no padding) -/

/-- The base64url alphabet used by Go's `base64.RawURLEncoding`. -/
def b64Alphabet : Str :=
  "ABCDEFGHIJKLMNOPQRSTUVWXYZabcdefghijklmnopqrstuvwxyz0123456789-_".toList

/-- Character of the base64url alphabet at a 6-bit index. -/
def b64Char (i : Nat) : Char := b64Alphabet.getD i 'A'

/-- Model of `base64.RawURLEncoding.EncodeToString`: big-endian packing of
3-byte groups into 4 characters, with a 2- resp. 3-character final group for
1 resp. 2 trailing bytes and no padding. -/
def base64RawURLEncode : List Nat → Str
  | [] => []
  | [b1] => [b64Char (b1 / 4), b64Char (b1 % 4 * 16)]
  | [b1, b2] => [b64Char (b1 / 4), b64Char (b1 % 4 * 16 + b2 / 16), b64Char (b2 % 16 * 4)]
  | b1 :: b2 :: b3 :: rest =>
    b64Char (b1 / 4) :: b64Char (b1 % 4 * 16 + b2 / 16) ::
      b64Char (b2 % 16 * 4 + b3 / 64) :: b64Char (b3 % 64) :: base64RawURLEncode rest

/-! ### helpers/rand.go -/

namespace helpers

/-- Model of `helpers.RandBytes(nByte)`: the crypto/rand reader produced the
byte list `bytes` (one entry per byte; a failed read is modelled by the
caller not reaching this function), and the result is the unpadded base64url
encoding of those bytes. -/
def RandBytes (bytes : List Nat) : Str := base64RawURLEncode bytes

/-- The byte count `int((float64(length) + 1.0) * .75)` requested by
`helpers.RandString`: exact in float64 for the representable range, this is
`⌊3(length+1)/4⌋`. -/
def randStringNumBytes (length : Nat) : Nat := 3 * (length + 1) / 4

/-- Model of `helpers.RandString(length)` given the bytes the random reader
produced: encode them and slice `b[0:length]`.  A Go slice beyond the length
of `b` panics, modelled as `none`. -/
def RandString (length : Nat) (bytes : List Nat) : Option Str :=
  let b := RandBytes bytes
  if length ≤ b.length then some (b.take length) else none

end helpers

/-! ### oauthutil: data model -/

namespace oauthutil

/-- Model of an `http.Cookie` with the fields the code sets. -/
structure Cookie where
  name : String
  value : Str
  maxAge : Nat
  secure : Bool
  httpOnly : Bool
  path : String
  deriving DecidableEq, Repr

/-- Model of `int(time.Hour.Seconds())`, the cookie `MaxAge`. -/
def timeHourSeconds : Nat := 3600

/-- Model of `setCallbackCookie` (oauth_flows.go): HTTP-only cookie with a
1-hour `MaxAge`, scoped to path `/`, `Secure` iff the request used TLS. -/
def setCallbackCookie (tls : Bool) (name : String) (value : Str) : Cookie :=
  { name := name, value := value, maxAge := timeHourSeconds, secure := tls,
    httpOnly := true, path := "/" }

/-- Model of the package-level `randString(nByte)` (oauth_flows.go): the
unpadded base64url encoding of the bytes the crypto/rand reader produced. -/
def randString (bytes : List Nat) : Str := base64RawURLEncode bytes

/-- Model of an `oauth2.Token`: the fields the code reads or writes.
`extra` models the raw fields accessible through `Token.Extra`
(e.g. `id_token`); it is not part of the JSON-serialized fields. -/
structure GoToken where
  accessToken : Str
  refreshToken : Str
  expiry : Int
  extra : List (String × Str)
  deriving DecidableEq, Repr

/-- An `oauth2.Token` whose set fields are zero values. -/
def zeroToken : GoToken := ⟨[], [], 0, []⟩

/-- Model of `Token.Extra(name).(string)`: `none` when the field is absent
(the type assertion fails). -/
def GoToken.extraField (t : GoToken) (name : String) : Option Str :=
  lookupBy t.extra name

/-- Model of a verified `oidc.IDToken`: the fields the code reads. -/
structure IDToken where
  nonce : Str
  expiry : Int
  deriving DecidableEq, Repr

/-- The relevant fields of an `oauth2.Config`. -/
structure OAuthConfig where
  authURL : Str
  clientID : Str
  redirectURL : Str
  deriving DecidableEq, Repr

/-- Model of `config.AuthCodeURL(state, oidc.Nonce(nonce))`: the provider's
authorization URL with the state (and, in identity-token mode, the nonce)
embedded as query parameters.  Modelled as a structured value carrying the
config and the embedded parameters. -/
structure AuthCodeURL where
  config : OAuthConfig
  state : Str
  nonce : Option Str
  deriving DecidableEq, Repr

/-! ### oauthutil: OIDCHandlers.RedirectToAuthURL (oidc.go) -/

/-- Result of `OIDCHandlers.RedirectToAuthURL`: the HTTP status written, the
cookies set, the redirect target (if any), and the function's return values
(state, error). -/
structure RedirectResult where
  status : Option Nat
  cookies : List Cookie
  redirect : Option AuthCodeURL
  state : Str
  err : Option String
  deriving DecidableEq, Repr

/-- Model of `OIDCHandlers.RedirectToAuthURL`.  The two `randString(16)`
calls are given the bytes read from crypto/rand (`none` models a failed
read).  On success it sets the `state` and `nonce` callback cookies, writes
a 302 redirect to `config.AuthCodeURL(state, oidc.Nonce(nonce))` and returns
the state. -/
def OIDCHandlers.RedirectToAuthURL (config : OAuthConfig) (tls : Bool)
    (stateBytes nonceBytes : Option (List Nat)) : RedirectResult :=
  match stateBytes with
  | none => ⟨some 500, [], none, [], some "random read failed"⟩
  | some sb =>
    let state := randString sb
    match nonceBytes with
    | none => ⟨some 500, [], none, state, some "random read failed"⟩
    | some nb =>
      let nonce := randString nb
      ⟨some 302,
       [setCallbackCookie tls "state" state, setCallbackCookie tls "nonce" nonce],
       some ⟨config, state, some nonce⟩, state, none⟩

/-! ### oauthutil: OIDCHandlers.HandleAuthCode (oidc.go) -/

/-- The callback request as `HandleAuthCode` reads it: the `state` and
`nonce` cookies and the `state` and `code` query parameters. -/
structure OidcRequest where
  stateCookie : Option Str
  nonceCookie : Option Str
  queryState : Str
  queryCode : Str
  deriving DecidableEq, Repr

/-- Result of `OIDCHandlers.HandleAuthCode`: the HTTP status written (if
any), and the returned (state, token source, error).  The returned
`IDTokenSource` is represented by the exchanged `oauth2.Token` it wraps. -/
structure HandleAuthCodeResult where
  status : Option Nat
  state : Str
  ts : Option GoToken
  err : Option String
  deriving DecidableEq, Repr

/-- Model of `OIDCHandlers.HandleAuthCode`.  `exchange` models
`config.Exchange` on the `code` query parameter; `verify` models
`verifier.Verify` on a raw identity token.  Note that in the state-mismatch
branch the code returns the `err` of the preceding successful `r.Cookie`
call, which is `nil`. -/
def OIDCHandlers.HandleAuthCode (exchange : Str → Except String GoToken)
    (verify : Str → Except String IDToken) (r : OidcRequest) : HandleAuthCodeResult :=
  match r.stateCookie with
  | none => ⟨some 400, [], none, some "http: named cookie not present"⟩
  | some state =>
    if r.queryState ≠ state then
      ⟨some 400, [], none, none⟩
    else
      match exchange r.queryCode with
      | .error e => ⟨some 500, [], none, some e⟩
      | .ok oauth2Token =>
        match oauth2Token.extraField "id_token" with
        | none => ⟨some 500, state, none, some "Failed to obtain IDToken"⟩
        | some rawIDToken =>
          match verify rawIDToken with
          | .error _ => ⟨some 500, state, none, some "Failed to verify IDToken"⟩
          | .ok idToken =>
            match r.nonceCookie with
            | none => ⟨some 400, state, none, some "Failed to obtain nonce"⟩
            | some nonce =>
              if idToken.nonce ≠ nonce then
                ⟨some 400, state, none, some "IDToken's nonce didn't match the nonce cookie"⟩
              else
                ⟨none, state, some oauth2Token, none⟩

/-! ### oauthutil: IDTokenSource (oidc.go) -/

/-- Model of an `IDTokenSource`: `source` is the result of the wrapped
`Source.Token()` call being modelled, `verifier` models `Verifier.Verify`. -/
structure IDTokenSource where
  source : Except String GoToken
  verifier : Str → Except String IDToken

/-- Model of the `tokenInternals` intermediary. -/
structure TokenInternals where
  tk : GoToken
  idTokJSON : Str
  idTok : IDToken
  deriving DecidableEq, Repr

/-- Model of `IDTokenSource.getToken`: get the underlying token, extract the
raw `id_token` field, and verify it. -/
def IDTokenSource.getToken (s : IDTokenSource) : Except String TokenInternals :=
  match s.source with
  | .error e =>
    .error ("IDTokenSource failed to get token from underlying token source: " ++ e)
  | .ok tk =>
    match tk.extraField "id_token" with
    | none => .error "Underlying token source didn't have field id_token"
    | some rawTok =>
      match s.verifier rawTok with
      | .error e => .error ("Failed to verify ID token: " ++ e)
      | .ok tok => .ok ⟨tk, rawTok, tok⟩

/-- Model of `IDTokenSource.Token`: an `oauth2.Token` whose access token is
the raw verified JWT and whose expiry is the verified token's expiry (the
other fields are zero values). -/
def IDTokenSource.Token (s : IDTokenSource) : Except String GoToken :=
  (s.getToken).map fun data =>
    { accessToken := data.idTokJSON, refreshToken := [], expiry := data.idTok.expiry,
      extra := [] }

/-- Model of `IDTokenSource.IDToken`: the verified identity token, or an
error when one could not be obtained. -/
def IDTokenSource.IDToken (s : IDTokenSource) : Except String IDToken :=
  (s.getToken).map (·.idTok)

/-! ### oauthutil: OIDCWebFlowServer.Run (oidc_webflow.go) -/

/-- A value sent on the completion channel `c` by `handleAuthCallback`:
either a token source (represented abstractly by `TS`) or an error. -/
inductive ChanMsg (TS : Type) where
  | ts (t : TS)
  | err (e : String)
  deriving DecidableEq, Repr

/-- The completion deadline `3 * time.Minute`, in nanoseconds. -/
def completionDeadline : Nat := 3 * 60 * 1000000000

/-- Outcome of `OIDCWebFlowServer.Run`: return values, and whether
`srv.Shutdown` was invoked before returning. -/
structure RunResult (TS : Type) where
  returnedTs : Option TS
  returnedErr : Option String
  shutdownInvoked : Bool
  deriving DecidableEq, Repr

/-- Model of the `select` at the end of `OIDCWebFlowServer.Run` together with
the deferred `srv.Shutdown`.  `arrival` is the first value available on the
completion channel, tagged with the time (ns after the select starts) at
which it becomes available; `none` if no value ever arrives.  The channel
branch fires when the value arrives before the `time.After(3 * time.Minute)`
timer. -/
def runSelect (TS : Type) (arrival : Option (Nat × ChanMsg TS)) : RunResult TS :=
  match arrival with
  | none => ⟨none, some "Timeout waiting for OIDC flow to complete", true⟩
  | some (t, msg) =>
    if t < completionDeadline then
      match msg with
      | .ts ts => ⟨some ts, none, true⟩
      | .err e => ⟨none, some ("OIDC flow didn't complete successfully: " ++ e), true⟩
    else ⟨none, some "Timeout waiting for OIDC flow to complete", true⟩

/-- Time (ns) for which the `select` in `Run` blocks: until the channel value
arrives, or until the 3-minute timer fires, whichever is first. -/
def runBlockTime (TS : Type) (arrival : Option (Nat × ChanMsg TS)) : Nat :=
  match arrival with
  | none => completionDeadline
  | some (t, _) => min t completionDeadline

/-- Model of `OIDCWebFlowServer.Run` from the point where the server
goroutine has been started: if `waitForReady` fails (`ready = false`) it
returns that error before the shutdown `defer` is registered; otherwise it
blocks on the select modelled by `runSelect`. -/
def OIDCWebFlowServer.Run (TS : Type) (ready : Bool)
    (arrival : Option (Nat × ChanMsg TS)) : RunResult TS :=
  if ready then runSelect TS arrival
  else ⟨none, some "timeout waiting for server to be healthy", false⟩

/-! ### oauthutil: Proxy session store (proxy.go) -/

/-- Model of the proxy `session` struct: a (nullable) pointer to an
`IDTokenSource`, represented abstractly by a `Nat` identifier, and the
post-login redirect target. -/
structure Session where
  Ts : Option Nat
  NextURL : Str
  deriving DecidableEq, Repr

/-- Model of the proxy's shared state.  Go's `map[string]*session` is split
into a heap of `session` structs (addresses are indices into `heap`) and a
map from cookie to address, so that pointer dereference and copying are
explicit. -/
structure ProxyState where
  heap : List Session
  sessions : List (Str × Nat)
  deriving DecidableEq, Repr

/-- Well-formedness of the proxy state: every address stored in the session
map points into the heap. -/
def ProxyState.WF (p : ProxyState) : Prop :=
  ∀ c a, lookupBy p.sessions c = some a → a < p.heap.length

/-- Model of `Proxy.getSession`: look the pointer up in the map and return a
copy (`*sess` dereferences and copies the struct); `none` models `ok = false`. -/
def Proxy.getSession (p : ProxyState) (cookie : Str) : Option Session :=
  match lookupBy p.sessions cookie with
  | none => none
  | some addr => some (p.heap.getD addr ⟨none, []⟩)

/-- Model of `Proxy.setSession`: for an empty cookie it only logs; otherwise
`&sess` allocates a fresh struct holding a copy of `sess` and the map entry
is overwritten to point at it. -/
def Proxy.setSession (p : ProxyState) (cookie : Str) (sess : Session) : ProxyState :=
  if cookie = [] then p
  else { heap := p.heap ++ [sess], sessions := (cookie, p.heap.length) :: p.sessions }

/-- A caller mutating the value returned by `getSession` (as
`handleOAuthCallback` does with `session.Ts = ts`): the assignment `f` acts
on the local copy only, so the proxy state is returned unchanged together
with the mutated copy. -/
def Proxy.mutateReturnedCopy (p : ProxyState) (cookie : Str)
    (f : Session → Session) : ProxyState × Option Session :=
  match Proxy.getSession p cookie with
  | none => (p, none)
  | some sess => (p, some (f sess))

/-! ### oauthutil: Proxy.oidcEnsureAuth (proxy.go) -/

/-- The session-cookie name `oidc-proxy-sid`. -/
def sessionCookieName : String := "oidc-proxy-sid"

/-- The login-start path `/oidc/start` (`oauthStart`). -/
def oauthStartPath : Str := "/oidc/start".toList

/-- Model of `setCookie` (proxy.go): identical attributes to
`setCallbackCookie`. -/
def setCookie (tls : Bool) (name : String) (value : Str) : Cookie :=
  { name := name, value := value, maxAge := timeHourSeconds, secure := tls,
    httpOnly := true, path := "/" }

/-- The guard of `oidcEnsureAuth`: the request carries a session cookie and
a session is stored for its value. -/
def Proxy.hasValidSession (p : ProxyState) (reqCookie : Option Str) : Bool :=
  match reqCookie with
  | some c => (Proxy.getSession p c).isSome
  | none => false

/-- Outcome of the `oidcEnsureAuth` interceptor on one request: the state
after the call, the HTTP status written (if any), the cookies set, the
redirect target (if any), and whether the request was passed to the wrapped
handler. -/
structure EnsureAuthResult where
  state : ProxyState
  status : Option Nat
  setCookies : List Cookie
  redirect : Option Str
  passedThrough : Bool
  deriving DecidableEq, Repr

/-- Model of `Proxy.oidcEnsureAuth` applied to one request.  `base` is the
proxy base URL, `reqCookie` the `oidc-proxy-sid` cookie value (if present),
`reqURL` the value of `r.URL.String()`, and `randBytes` the bytes crypto/rand
produced for `helpers.RandString(24)` (`none` models a failed read).  The
outer `none` models a Go panic (out-of-range slice). -/
def Proxy.oidcEnsureAuth (p : ProxyState) (base : Str) (tls : Bool)
    (reqCookie : Option Str) (reqURL : Str) (randBytes : Option (List Nat)) :
    Option EnsureAuthResult :=
  if Proxy.hasValidSession p reqCookie then
    some ⟨p, none, [], none, true⟩
  else
    match randBytes with
    | none => some ⟨p, some 500, [], none, false⟩
    | some bytes =>
      match helpers.RandString 24 bytes with
      | none => none
      | some sid =>
        some ⟨Proxy.setSession p sid ⟨none, reqURL⟩, some 302,
              [setCookie tls sessionCookieName sid],
              some (base ++ oauthStartPath), false⟩

end oauthutil

/-! ### gcp/credentials.go: FileTokenCache -/

namespace gcp

open oauthutil

/-- A JSON value, as produced/consumed by Go's encoding/json. -/
inductive Json where
  | str (s : Str)
  | num (n : Int)
  | obj (fields : List (String × Json))

/-- Model of `json.NewEncoder(f).Encode(token)` for an `oauth2.Token`:
`access_token` always, `refresh_token` with `omitempty`, and `expiry`
(a struct, so never omitted; the RFC3339 timestamp is modelled by the
wall-clock instant it denotes). -/
def encodeToken (t : GoToken) : Json :=
  .obj ([("access_token", .str t.accessToken)] ++
        (if t.refreshToken = [] then [] else [("refresh_token", .str t.refreshToken)]) ++
        [("expiry", .num t.expiry)])

/-- One step of `json.Decode` into an `oauth2.Token`: assign a single JSON
object field to the struct, failing on a type mismatch and ignoring unknown
fields. -/
def assignField (t : GoToken) (name : String) (v : Json) : Except String GoToken :=
  if name = "access_token" then
    match v with
    | .str s => .ok { t with accessToken := s }
    | _ => .error "json: cannot unmarshal into field access_token"
  else if name = "refresh_token" then
    match v with
    | .str s => .ok { t with refreshToken := s }
    | _ => .error "json: cannot unmarshal into field refresh_token"
  else if name = "expiry" then
    match v with
    | .num n => .ok { t with expiry := n }
    | _ => .error "json: cannot unmarshal into field expiry"
  else .ok t

/-- Fold `assignField` over the object fields in order; on the first failure
the token keeps the fields assigned so far (Go decodes into the struct in
place). -/
def decodeFields (t : GoToken) : List (String × Json) → GoToken × Option String
  | [] => (t, none)
  | (n, v) :: rest =>
    match assignField t n v with
    | .ok t2 => decodeFields t2 rest
    | .error e => (t, some e)

/-- Model of `json.NewDecoder(f).Decode(tok)` for a `*oauth2.Token` that
starts from the zero value. -/
def decodeTokenJson (j : Json) : GoToken × Option String :=
  match j with
  | .obj fields => decodeFields zeroToken fields
  | _ => (zeroToken, some "json: cannot unmarshal into Go value of type oauth2.Token")

/-- The state of the cache file as `GetToken` can encounter it. -/
inductive FileState where
  | missing
  | openErr (e : String)
  | corrupt (e : String)
  | content (j : Json)

/-- Return values of `FileTokenCache.GetToken`. -/
structure GetTokenResult where
  tok : Option GoToken
  err : Option String
  deriving DecidableEq, Repr

/-- Model of `FileTokenCache.GetToken`: a missing file yields `(nil, nil)`;
any other open error is returned; otherwise the file is decoded and
`(tok, err)` returned (`tok` is the partially assigned struct even when the
decoder fails). -/
def FileTokenCache.GetToken (fs : FileState) : GetTokenResult :=
  match fs with
  | .missing => ⟨none, none⟩
  | .openErr e => ⟨none, some e⟩
  | .corrupt e => ⟨some zeroToken, some e⟩
  | .content j => ⟨some (decodeTokenJson j).1, (decodeTokenJson j).2⟩

/-- Model of `FileTokenCache.Save`: `dirOk` models the `os.Stat`/`MkdirAll`
of the cache directory succeeding, `openOk` the `os.OpenFile` succeeding; on
success the file is truncated and the JSON encoding of the token written. -/
def FileTokenCache.Save (dirOk openOk : Bool) (t : GoToken) (fs : FileState) :
    FileState × Option String :=
  if ¬ dirOk then (fs, some "failed to create cache directory")
  else if ¬ openOk then (fs, some "failed to open cache file")
  else (.content (encodeToken t), none)

end gcp

/-! ## Helper lemmas -/

/-- The unpadded base64 encoding of `k` bytes has exactly `⌈4k/3⌉` characters
(Go: `RawURLEncoding.EncodedLen`). -/
theorem base64RawURLEncode_length (l : List Nat) :
    (base64RawURLEncode l).length = (4 * l.length + 2) / 3 := by
  induction l using base64RawURLEncode.induct with
  | case1 => rfl
  | case2 b1 => simp [base64RawURLEncode]
  | case3 b1 b2 => simp [base64RawURLEncode]
  | case4 b1 b2 b3 rest ih =>
    simp only [base64RawURLEncode, List.length_cons, ih]
    omega

/-- The slice bound in `RandString`: encoding `⌊3(n+1)/4⌋` bytes yields at
least `n` characters. -/
theorem randString_slice_in_bounds (n : Nat) :
    n ≤ (4 * (helpers.randStringNumBytes n) + 2) / 3 := by
  simp only [helpers.randStringNumBytes]
  omega

/-- When the random reader produces the requested `⌊3(n+1)/4⌋` bytes,
`helpers.RandString n` returns an `n`-character string. -/
theorem randString_ok (n : Nat) (bytes : List Nat)
    (h : bytes.length = helpers.randStringNumBytes n) :
    ∃ s, helpers.RandString n bytes = some s ∧ s.length = n := by
  have hb : (helpers.RandBytes bytes).length = (4 * helpers.randStringNumBytes n + 2) / 3 := by
    simp [helpers.RandBytes, base64RawURLEncode_length, h]
  have hle : n ≤ (helpers.RandBytes bytes).length := by
    rw [hb]; exact randString_slice_in_bounds n
  refine ⟨(helpers.RandBytes bytes).take n, ?_, ?_⟩
  · simp [helpers.RandString, hle]
  · simp [List.length_take]
    omega

/-- The entry at the old length of a list extended by one element is that
element. -/
theorem getD_append_self {α : Type} (l : List α) (v d : α) :
    (l ++ [v]).getD l.length d = v := by
  induction l with
  | nil => rfl
  | cons a rest ih => simp [ih]

/-! ## Claims -/

/-- C9: for every length `n ≥ 0`, when the underlying random read succeeds
(producing the `int((n+1)*0.75)` bytes the code requests), `RandString n`
returns a string of exactly `n` characters and no error: the slice `b[0:n]`
is always within the bounds of the base64url encoding. -/
theorem RandString_length (n : Nat) (bytes : List Nat)
    (h : bytes.length = helpers.randStringNumBytes n) :
    ∃ s, helpers.RandString n bytes = some s ∧ s.length = n :=
  randString_ok n bytes h

/-- Witness for C9 at `n = 24`: the code requests 18 random bytes and the
24-character slice is in bounds. -/
theorem RandString_length_witness :
    (List.replicate 18 0).length = helpers.randStringNumBytes 24 ∧
      ∃ s, helpers.RandString 24 (List.replicate 18 0) = some s ∧ s.length = 24 :=
  ⟨by decide, RandString_length 24 (List.replicate 18 0) (by decide)⟩

/-- C1 (evaluation of the code at the failing input): for a callback request
whose `state` cookie is present with value `abc` while the `state` query
parameter is `xyz`, `HandleAuthCode` writes HTTP 400 and returns no token
source — but the error it returns is the `nil` error of the preceding
successful cookie read, not a non-nil error. -/
theorem HandleAuthCode_state_mismatch_nil_error :
    ∀ (exchange : Str → Except String oauthutil.GoToken)
      (verify : Str → Except String oauthutil.IDToken)
      (nonceCookie : Option Str) (code : Str),
      oauthutil.OIDCHandlers.HandleAuthCode exchange verify
          ⟨some "abc".toList, nonceCookie, "xyz".toList, code⟩ =
        ⟨some 400, [], none, none⟩ := by
  intro exchange verify nonceCookie code
  rfl

/-- C4: for every callback request that reaches the nonce comparison (state
cookie present and matching, exchange succeeded, `id_token` present and
verified, `nonce` cookie present) in which the verified identity token's
nonce claim differs from the `nonce` cookie value, `HandleAuthCode` writes
HTTP 400 and returns a non-nil error and no token source. -/
theorem HandleAuthCode_nonce_mismatch
    (exchange : Str → Except String oauthutil.GoToken)
    (verify : Str → Except String oauthutil.IDToken)
    (sc nc code raw : Str) (tok : oauthutil.GoToken) (idTok : oauthutil.IDToken)
    (hex : exchange code = .ok tok)
    (hraw : tok.extraField "id_token" = some raw)
    (hver : verify raw = .ok idTok)
    (hnonce : idTok.nonce ≠ nc) :
    oauthutil.OIDCHandlers.HandleAuthCode exchange verify ⟨some sc, some nc, sc, code⟩ =
      ⟨some 400, sc, none, some "IDToken's nonce didn't match the nonce cookie"⟩ := by
  simp [oauthutil.OIDCHandlers.HandleAuthCode, hex, hraw, hver, hnonce]

/-- Witness for C4 at a concrete request: nonce claim `n1` against nonce
cookie `n2`. -/
theorem HandleAuthCode_nonce_mismatch_witness :
    oauthutil.OIDCHandlers.HandleAuthCode
        (fun _ => .ok ⟨"at".toList, [], 0, [("id_token", "jwt".toList)]⟩)
        (fun _ => .ok ⟨"n1".toList, 99⟩)
        ⟨some "st".toList, some "n2".toList, "st".toList, "c".toList⟩ =
      ⟨some 400, "st".toList, none, some "IDToken's nonce didn't match the nonce cookie"⟩ :=
  HandleAuthCode_nonce_mismatch _ _ _ _ _ _
    ⟨"at".toList, [], 0, [("id_token", "jwt".toList)]⟩ ⟨"n1".toList, 99⟩
    rfl rfl rfl (by decide)

/-- C6: whenever the two 16-byte random reads succeed, `RedirectToAuthURL`
sets `state` and `nonce` cookies whose values are the unpadded base64url
encodings of the 16 random bytes, each HTTP-only, scoped to path `/`, with a
3600-second (1-hour) `MaxAge`; it writes an HTTP 302 redirect to the
provider's authorization URL embedding the state and nonce, and returns the
generated state and no error. -/
theorem RedirectToAuthURL_spec (config : oauthutil.OAuthConfig) (tls : Bool)
    (sb nb : List Nat) (_hs : sb.length = 16) (_hn : nb.length = 16) :
    oauthutil.OIDCHandlers.RedirectToAuthURL config tls (some sb) (some nb) =
      ⟨some 302,
       [⟨"state", oauthutil.randString sb, 3600, tls, true, "/"⟩,
        ⟨"nonce", oauthutil.randString nb, 3600, tls, true, "/"⟩],
       some ⟨config, oauthutil.randString sb, some (oauthutil.randString nb)⟩,
       oauthutil.randString sb, none⟩ := rfl

/-- Witness for C6 at concrete 16-byte reads. -/
theorem RedirectToAuthURL_spec_witness :
    oauthutil.OIDCHandlers.RedirectToAuthURL ⟨[], [], []⟩ false
        (some (List.replicate 16 0)) (some (List.replicate 16 1)) =
      ⟨some 302,
       [⟨"state", oauthutil.randString (List.replicate 16 0), 3600, false, true, "/"⟩,
        ⟨"nonce", oauthutil.randString (List.replicate 16 1), 3600, false, true, "/"⟩,],
       some ⟨⟨[], [], []⟩, oauthutil.randString (List.replicate 16 0),
             some (oauthutil.randString (List.replicate 16 1))⟩,
       oauthutil.randString (List.replicate 16 0), none⟩ :=
  RedirectToAuthURL_spec ⟨[], [], []⟩ false (List.replicate 16 0) (List.replicate 16 1)
    (by decide) (by decide)

/-- C3: when the underlying source yields a token whose embedded `id_token`
verifies, `Token()` returns a bearer token whose value is the raw verified
JWT string and whose expiry is the verified identity token's expiry (and
`IDToken()` returns that verified token); when the `id_token` field is
absent or fails verification, both `Token()` and `IDToken()` return an
error — never the unverified access token. -/
theorem IDTokenSource_Token_spec (s : oauthutil.IDTokenSource)
    (tk : oauthutil.GoToken) (hsrc : s.source = .ok tk) :
    (∀ raw idTok, tk.extraField "id_token" = some raw → s.verifier raw = .ok idTok →
        s.Token = .ok ⟨raw, [], idTok.expiry, []⟩ ∧ s.IDToken = .ok idTok) ∧
    (tk.extraField "id_token" = none →
        (∃ e, s.Token = .error e) ∧ (∃ e, s.IDToken = .error e)) ∧
    (∀ raw e, tk.extraField "id_token" = some raw → s.verifier raw = .error e →
        (∃ e2, s.Token = .error e2) ∧ (∃ e2, s.IDToken = .error e2)) := by
  refine ⟨?_, ?_, ?_⟩
  · intro raw idTok hraw hver
    have hg : s.getToken = .ok ⟨tk, raw, idTok⟩ := by
      simp [oauthutil.IDTokenSource.getToken, hsrc, hraw, hver]
    constructor
    · simp [oauthutil.IDTokenSource.Token, hg, Except.map]
    · simp [oauthutil.IDTokenSource.IDToken, hg, Except.map]
  · intro hraw
    have hg : s.getToken = .error "Underlying token source didn't have field id_token" := by
      simp [oauthutil.IDTokenSource.getToken, hsrc, hraw]
    constructor
    · exact ⟨"Underlying token source didn't have field id_token",
        by simp [oauthutil.IDTokenSource.Token, hg, Except.map]⟩
    · exact ⟨"Underlying token source didn't have field id_token",
        by simp [oauthutil.IDTokenSource.IDToken, hg, Except.map]⟩
  · intro raw e hraw hver
    have hg : s.getToken = .error ("Failed to verify ID token: " ++ e) := by
      simp [oauthutil.IDTokenSource.getToken, hsrc, hraw, hver]
    constructor
    · exact ⟨"Failed to verify ID token: " ++ e,
        by simp [oauthutil.IDTokenSource.Token, hg, Except.map]⟩
    · exact ⟨"Failed to verify ID token: " ++ e,
        by simp [oauthutil.IDTokenSource.IDToken, hg, Except.map]⟩

/-- Witness for C3 at a concrete source and verifier: the bearer token is the
raw JWT with the verified expiry. -/
theorem IDTokenSource_Token_spec_witness :
    oauthutil.IDTokenSource.Token
        ⟨.ok ⟨"opaque".toList, [], 0, [("id_token", "jwt".toList)]⟩,
         fun _ => .ok ⟨"n".toList, 7⟩⟩ =
      .ok ⟨"jwt".toList, [], 7, []⟩ :=
  ((IDTokenSource_Token_spec
      ⟨.ok ⟨"opaque".toList, [], 0, [("id_token", "jwt".toList)]⟩,
       fun _ => .ok ⟨"n".toList, 7⟩⟩
      ⟨"opaque".toList, [], 0, [("id_token", "jwt".toList)]⟩ rfl).1
    "jwt".toList ⟨"n".toList, 7⟩ rfl rfl).1

/-- C5: after the server is ready, `Run` blocks on the completion channel for
at most 3 minutes; a success value arriving first yields that token source
and no error, an error value arriving first yields a wrapped error, and no
arrival within the deadline yields a timeout error; in all three outcomes
the server shutdown is invoked before `Run` returns. -/
theorem Run_completion_spec (TS : Type) (arrival : Option (Nat × oauthutil.ChanMsg TS)) :
    oauthutil.runBlockTime TS arrival ≤ oauthutil.completionDeadline ∧
    (oauthutil.OIDCWebFlowServer.Run TS true arrival).shutdownInvoked = true ∧
    (∀ t ts, arrival = some (t, .ts ts) → t < oauthutil.completionDeadline →
        oauthutil.OIDCWebFlowServer.Run TS true arrival = ⟨some ts, none, true⟩) ∧
    (∀ t e, arrival = some (t, .err e) → t < oauthutil.completionDeadline →
        oauthutil.OIDCWebFlowServer.Run TS true arrival =
          ⟨none, some ("OIDC flow didn't complete successfully: " ++ e), true⟩) ∧
    (arrival = none →
        oauthutil.OIDCWebFlowServer.Run TS true arrival =
          ⟨none, some "Timeout waiting for OIDC flow to complete", true⟩) ∧
    (∀ t msg, arrival = some (t, msg) → ¬ t < oauthutil.completionDeadline →
        oauthutil.OIDCWebFlowServer.Run TS true arrival =
          ⟨none, some "Timeout waiting for OIDC flow to complete", true⟩) := by
  refine ⟨?_, ?_, ?_, ?_, ?_, ?_⟩
  · cases arrival with
    | none => exact le_refl _
    | some p => exact min_le_right _ _
  · cases arrival with
    | none => rfl
    | some p =>
      obtain ⟨t, msg⟩ := p
      by_cases h : t < oauthutil.completionDeadline
      · cases msg <;> simp [oauthutil.OIDCWebFlowServer.Run, oauthutil.runSelect, h]
      · simp [oauthutil.OIDCWebFlowServer.Run, oauthutil.runSelect, h]
  · intro t ts harr hlt
    subst harr
    simp [oauthutil.OIDCWebFlowServer.Run, oauthutil.runSelect, hlt]
  · intro t e harr hlt
    subst harr
    simp [oauthutil.OIDCWebFlowServer.Run, oauthutil.runSelect, hlt]
  · intro harr
    subst harr
    rfl
  · intro t msg harr hlt
    subst harr
    simp [oauthutil.OIDCWebFlowServer.Run, oauthutil.runSelect, hlt]

/-- Witness for C5: a success arriving at 5 ns is returned, and no arrival
yields the timeout error; shutdown is invoked in both cases. -/
theorem Run_completion_spec_witness :
    oauthutil.OIDCWebFlowServer.Run Nat true (some (5, .ts 42)) = ⟨some 42, none, true⟩ ∧
    oauthutil.OIDCWebFlowServer.Run Nat true none =
      ⟨none, some "Timeout waiting for OIDC flow to complete", true⟩ :=
  ⟨(Run_completion_spec Nat (some (5, .ts 42))).2.2.1 5 42 rfl (by decide),
   (Run_completion_spec Nat none).2.2.2.2.1 rfl⟩

/-- C8: `getSession` returns a copy of the stored session value: mutating the
returned value leaves the state — and hence the stored map entry — unchanged,
while `setSession` does change the stored entry (and only the entry for its
cookie). -/
theorem getSession_copy_isolation (p : oauthutil.ProxyState) (cookie : Str)
    (f : oauthutil.Session → oauthutil.Session) (hwf : p.WF) :
    (oauthutil.Proxy.mutateReturnedCopy p cookie f).1 = p ∧
    (∀ sess, oauthutil.Proxy.getSession p cookie = some sess →
        (oauthutil.Proxy.mutateReturnedCopy p cookie f).2 = some (f sess) ∧
        oauthutil.Proxy.getSession (oauthutil.Proxy.mutateReturnedCopy p cookie f).1 cookie =
          some sess) ∧
    (∀ v, cookie ≠ [] →
        oauthutil.Proxy.getSession (oauthutil.Proxy.setSession p cookie v) cookie = some v) ∧
    (∀ v c, c ≠ cookie →
        oauthutil.Proxy.getSession (oauthutil.Proxy.setSession p cookie v) c =
          oauthutil.Proxy.getSession p c) := by
  refine ⟨?_, ?_, ?_, ?_⟩
  · cases h : oauthutil.Proxy.getSession p cookie <;>
      simp [oauthutil.Proxy.mutateReturnedCopy, h]
  · intro sess hs
    simp [oauthutil.Proxy.mutateReturnedCopy, hs]
  · intro v hc
    simp [oauthutil.Proxy.getSession, oauthutil.Proxy.setSession, hc, lookupBy,
      getD_append_self]
  · intro v c hcne
    by_cases hemp : cookie = []
    · simp [oauthutil.Proxy.setSession, hemp]
    · have hne : cookie ≠ c := fun h => hcne h.symm
      cases hl : lookupBy p.sessions c with
      | none =>
        simp [oauthutil.Proxy.getSession, oauthutil.Proxy.setSession, hemp, lookupBy, hne, hl]
      | some addr =>
        simp [oauthutil.Proxy.getSession, oauthutil.Proxy.setSession, hemp, lookupBy, hne, hl,
          List.getElem?_append_left (hwf c addr hl)]

/-- Witness for C8 on a one-session state: mutating the copy leaves the state
unchanged, and `setSession` stores the new value. -/
theorem getSession_copy_isolation_witness :
    (oauthutil.Proxy.mutateReturnedCopy ⟨[⟨none, "u".toList⟩], [("c".toList, 0)]⟩ "c".toList
        (fun s => { s with Ts := some 5 })).1 = ⟨[⟨none, "u".toList⟩], [("c".toList, 0)]⟩ ∧
    oauthutil.Proxy.getSession
        (oauthutil.Proxy.setSession ⟨[⟨none, "u".toList⟩], [("c".toList, 0)]⟩ "c".toList
          ⟨some 5, "u".toList⟩) "c".toList = some ⟨some 5, "u".toList⟩ := by
  have hwf : oauthutil.ProxyState.WF ⟨[⟨none, "u".toList⟩], [("c".toList, 0)]⟩ := by
    intro c a h
    unfold lookupBy at h
    split at h
    · simp only [Option.some.injEq] at h
      subst h
      decide
    · simp [lookupBy] at h
  have h := getSession_copy_isolation ⟨[⟨none, "u".toList⟩], [("c".toList, 0)]⟩ "c".toList
    (fun s => { s with Ts := some 5 }) hwf
  exact ⟨h.1, h.2.2.1 ⟨some 5, "u".toList⟩ (by decide)⟩

/-- C2 counterexample: the session identifier minted by `oidcEnsureAuth` is
produced by `helpers.RandString(24)`, which requests only
`int((24+1)*0.75) = 18` random bytes — fewer than the 24 bytes of entropy the
claim asserts — and succeeds on an 18-byte read. -/
theorem oidcEnsureAuth_entropy_counterexample :
    helpers.randStringNumBytes 24 = 18 ∧ ¬ 24 ≤ helpers.randStringNumBytes 24 ∧
      (helpers.RandString 24 (List.replicate 18 0)).isSome = true := by decide

/-- C2 as amended: on a request with no valid session cookie, when the
18-byte random read succeeds, `oidcEnsureAuth` mints a 24-character session
identifier derived from those 18 random bytes (144 bits of entropy), stores
the originally requested URL as the session's post-login redirect target,
sets the session cookie, and redirects (302) to the login-start endpoint. -/
theorem oidcEnsureAuth_new_session (p : oauthutil.ProxyState) (base : Str) (tls : Bool)
    (rc : Option Str) (url : Str) (bytes : List Nat)
    (hvalid : oauthutil.Proxy.hasValidSession p rc = false)
    (hlen : bytes.length = helpers.randStringNumBytes 24) :
    ∃ sid, helpers.RandString 24 bytes = some sid ∧ sid.length = 24 ∧
      oauthutil.Proxy.oidcEnsureAuth p base tls rc url (some bytes) =
        some ⟨oauthutil.Proxy.setSession p sid ⟨none, url⟩, some 302,
              [oauthutil.setCookie tls oauthutil.sessionCookieName sid],
              some (base ++ oauthutil.oauthStartPath), false⟩ ∧
      oauthutil.Proxy.getSession (oauthutil.Proxy.setSession p sid ⟨none, url⟩) sid =
        some ⟨none, url⟩ := by
  obtain ⟨sid, hrs, hsl⟩ := randString_ok 24 bytes hlen
  have hne : sid ≠ [] := by
    intro h
    rw [h] at hsl
    simp at hsl
  refine ⟨sid, hrs, hsl, ?_, ?_⟩
  · simp [oauthutil.Proxy.oidcEnsureAuth, hvalid, hrs]
  · simp [oauthutil.Proxy.setSession, oauthutil.Proxy.getSession, hne, lookupBy,
      getD_append_self]

/-- Witness for C2 (amended) on the empty proxy state with an 18-byte read. -/
theorem oidcEnsureAuth_new_session_witness :
    oauthutil.Proxy.hasValidSession ⟨[], []⟩ none = false ∧
    (List.replicate 18 0).length = helpers.randStringNumBytes 24 ∧
    (∃ sid, helpers.RandString 24 (List.replicate 18 0) = some sid ∧ sid.length = 24 ∧
      oauthutil.Proxy.oidcEnsureAuth ⟨[], []⟩ [] false none []
          (some (List.replicate 18 0)) =
        some ⟨oauthutil.Proxy.setSession ⟨[], []⟩ sid ⟨none, []⟩, some 302,
              [oauthutil.setCookie false oauthutil.sessionCookieName sid],
              some ([] ++ oauthutil.oauthStartPath), false⟩ ∧
      oauthutil.Proxy.getSession (oauthutil.Proxy.setSession ⟨[], []⟩ sid ⟨none, []⟩) sid =
        some ⟨none, []⟩) :=
  ⟨rfl, by decide,
   oidcEnsureAuth_new_session ⟨[], []⟩ [] false none [] (List.replicate 18 0) rfl (by decide)⟩

/-- C7: saving any token with `FileTokenCache.Save` (directory and file
operations succeeding) and reading it back with `FileTokenCache.GetToken`
yields a token with the same access token, refresh token and expiry, and no
error in either direction. -/
theorem fileTokenCache_round_trip (t : oauthutil.GoToken) (fs : gcp.FileState) :
    (gcp.FileTokenCache.Save true true t fs).2 = none ∧
    ∃ t2, gcp.FileTokenCache.GetToken (gcp.FileTokenCache.Save true true t fs).1 =
        ⟨some t2, none⟩ ∧
      t2.accessToken = t.accessToken ∧ t2.refreshToken = t.refreshToken ∧
      t2.expiry = t.expiry := by
  have hdec : gcp.decodeTokenJson (gcp.encodeToken t) =
      (⟨t.accessToken, t.refreshToken, t.expiry, []⟩, none) := by
    by_cases hr : t.refreshToken = []
    · simp [gcp.encodeToken, hr, gcp.decodeTokenJson, gcp.decodeFields, gcp.assignField,
        oauthutil.zeroToken]
    · simp [gcp.encodeToken, hr, gcp.decodeTokenJson, gcp.decodeFields, gcp.assignField,
        oauthutil.zeroToken]
  refine ⟨rfl, ⟨t.accessToken, t.refreshToken, t.expiry, []⟩, ?_, rfl, rfl, rfl⟩
  show gcp.FileTokenCache.GetToken (.content (gcp.encodeToken t)) = _
  simp [gcp.FileTokenCache.GetToken, hdec]

/-- C10: a missing cache file yields a nil token and a nil error; any other
open failure is returned as an error, and a decode failure is returned as an
error (alongside the partially decoded token). -/
theorem getToken_error_cases (e : String) (j : gcp.Json) :
    gcp.FileTokenCache.GetToken .missing = ⟨none, none⟩ ∧
    gcp.FileTokenCache.GetToken (.openErr e) = ⟨none, some e⟩ ∧
    (gcp.FileTokenCache.GetToken (.corrupt e)).err = some e ∧
    (gcp.FileTokenCache.GetToken (.content j)).err = (gcp.decodeTokenJson j).2 :=
  ⟨rfl, rfl, rfl, rfl⟩

end Monogo
